import Mathlib

/-!
Verification development for the `webdriver-manager` script of the
protractor repository (`bin/webdriver-manager`, shipped here as
`src/unnamed/part_000`).

The script manages three external binaries (the selenium standalone
server jar, chromedriver, and IEDriverServer): it scans an output
directory, downloads missing/outdated binaries, unpacks archives, and
supervises the launched selenium server process.

Modelling choices (shallow embedding):
* The output directory is modelled as an association list
  `FS = List (FileName × String)` from file names (relative to the
  output directory) to file contents.  File names inside the output
  directory are the only paths the script manipulates, so the model
  keys files by their bare names; `path.join(out_dir, f)` is identified
  with `f`.
* The HTTP layer (`request(options).on(...)`) is modelled as a script:
  a list of stream events (`response`, `data`, `error`, `end`) that the
  registered handlers process in order, exactly as the handlers in
  `httpGetFile` are written.  Writing to the file stream after the
  destination path has been unlinked goes to the open inode and is not
  visible at the path (POSIX unlink semantics).
* `fs.unlinkSync` on a missing file throws; this is modelled by a
  `Bool` "threw" flag which, once set, aborts the rest of the run
  (an uncaught exception terminates the node process).
* Archive decoding (`AdmZip`) is an external capability: a parameter
  `uz : String → Option (List (FileName × String))` mapping an archive
  file's bytes to its entries (`none` models the constructor throwing
  on an invalid archive).  `extractAllTo` overwrite semantics follow
  adm-zip: an existing entry is skipped unless `overwrite` is true.
* The three `downloadIfNew` calls of the `update` command are run in
  sequence.  In node their network completions interleave, but every
  property proved below only depends on the per-descriptor sequencing
  (scan snapshot → delete stale → fetch → install), which the real
  event loop also guarantees; deletions only touch names from the
  startup snapshot, so the sequential schedule is observationally
  equivalent for the stated theorems.
* Unix permission bits are outside the model; `chmodSync` is retained
  only through its ENOENT-throwing behaviour on a missing file.
-/

set_option autoImplicit false

abbrev FileName := String

/-- The output directory: an association list from file names to contents. -/
abbrev FS := List (FileName × String)

/-- Names present in the directory (`fs.readdirSync`). -/
def fsNames (fs : FS) : List FileName :=
  fs.map (fun e => e.1)

/-- `fs.existsSync(path.join(dir, n))`. -/
def fsExists (fs : FS) (n : FileName) : Bool :=
  fs.any (fun e => e.1 == n)

/-- Content of the file named `n`, if present. -/
def fsLookup (fs : FS) (n : FileName) : Option String :=
  (fs.find? (fun e => e.1 == n)).map (fun e => e.2)

/-- `fs.unlink` / `fs.unlinkSync`: remove the directory entry named `n`. -/
def fsRemove (fs : FS) (n : FileName) : FS :=
  fs.filter (fun e => e.1 != n)

/-- Create/truncate the file named `n` with content `c`. -/
def fsWrite (fs : FS) (n : FileName) (c : String) : FS :=
  fsRemove fs n ++ [(n, c)]

/-- `pat.isPrefixOf l || ...` at every suffix: substring containment on
character lists. -/
def charsContains (pat : List Char) : List Char → Bool
  | [] => pat.isEmpty
  | c :: rest => pat.isPrefixOf (c :: rest) || charsContains pat rest

/-- JavaScript `s.indexOf(pat) != -1`: `s` contains `pat` as a substring. -/
def strContains (s pat : String) : Bool :=
  charsContains pat.toList s.toList

/-- JavaScript `s.lastIndexOf(c)`: index of the last occurrence, `-1` if none. -/
def jsLastIndexOf (l : List Char) (c : Char) : Int :=
  match l.reverse.findIdx? (fun d => d == c) with
  | some i => (l.length : Int) - 1 - (i : Int)
  | none => -1

/-- `version.slice(0, version.lastIndexOf('.'))`: major and minor version
without the patch (JS `slice` clamps a negative end index by adding the
length, and `Int.toNat` clamps below zero exactly as `slice` does). -/
def shortVersion (version : String) : String :=
  let l := version.toList
  let i := jsLastIndexOf l '.'
  String.mk (l.take (if i < 0 then ((l.length : Int) + i).toNat else i.toNat))

/-- `os.type()` values the script distinguishes. -/
inductive OSType
  | darwin
  | linux
  | windowsNT
  | other
  deriving DecidableEq, Repr

/-- `os.arch()` values the script distinguishes. -/
inductive Arch
  | x64
  | other
  deriving DecidableEq, Repr

structure Platform where
  osType : OSType
  arch : Arch
  deriving DecidableEq, Repr

/-- `config.json`'s `webdriverVersions` object. -/
structure WebdriverVersions where
  selenium : String
  chromedriver : String
  iedriver : String
  deriving DecidableEq, Repr

/-- One entry of the `binaries` registry.  The source field `prefix` is a
Lean keyword and is rendered `filePrefix`. -/
structure Binary where
  name : String
  isDefault : Bool
  filePrefix : String
  filename : String
  url : Platform → Option String

def binaries.standalone (v : WebdriverVersions) : Binary where
  name := "selenium standalone"
  isDefault := true
  filePrefix := "selenium-server-standalone"
  filename := "selenium-server-standalone-" ++ v.selenium ++ ".jar"
  url := fun _ =>
    some ("https://selenium-release.storage.googleapis.com/" ++
      shortVersion v.selenium ++ "/" ++
      "selenium-server-standalone-" ++ v.selenium ++ ".jar")

def binaries.chrome (v : WebdriverVersions) : Binary where
  name := "chromedriver"
  isDefault := true
  filePrefix := "chromedriver_"
  filename := "chromedriver_" ++ v.chromedriver ++ ".zip"
  url := fun plat =>
    let urlPre := "https://chromedriver.storage.googleapis.com/" ++
      v.chromedriver ++ "/chromedriver_"
    match plat.osType with
    | .darwin => some (urlPre ++ "mac32.zip")
    | .linux =>
        if plat.arch = Arch.x64 then some (urlPre ++ "linux64.zip")
        else some (urlPre ++ "linux32.zip")
    | .windowsNT => some (urlPre ++ "win32.zip")
    | .other => none

def binaries.ie (v : WebdriverVersions) : Binary where
  name := "IEDriver"
  isDefault := false
  filePrefix := "IEDriverServer"
  filename := "IEDriverServer_" ++ v.iedriver ++ ".zip"
  url := fun plat =>
    let urlPre := "https://selenium-release.storage.googleapis.com/" ++
      shortVersion v.iedriver ++ "/IEDriverServer"
    match plat.osType with
    | .windowsNT =>
        if plat.arch = Arch.x64 then
          some (urlPre ++ "_x64_" ++ v.iedriver ++ ".zip")
        else
          some (urlPre ++ "_Win32_" ++ v.iedriver ++ ".zip")
    | _ => none

/-- Append `.exe` to a file name on Windows (`executableName`). -/
def executableName (plat : Platform) (file : String) : String :=
  if plat.osType = OSType.windowsNT then file ++ ".exe" else file

/-- `path.join` restricted to the directory/file joins the script performs. -/
def pathJoin (dir file : String) : String :=
  dir ++ "/" ++ file

/-- A spawned command after `spawnCommand`'s win32 normalization. -/
structure SpawnedCmd where
  cmd : String
  args : List String
  deriving DecidableEq, Repr

/-- `spawnCommand`: wrap through `cmd /c` on win32, pass through elsewhere. -/
def spawnCommand (plat : Platform) (command : String) (args : List String) :
    SpawnedCmd :=
  if plat.osType = OSType.windowsNT then
    { cmd := "cmd", args := ["/c", command] ++ args }
  else
    { cmd := command, args := args }

/-- One event delivered by the HTTP request stream in `httpGetFile`. -/
inductive NetEvent
  | response (statusCode : Nat)
  | chunk (data : String)
  | errorEv (message : String)
  | endEv
  deriving DecidableEq, Repr

/-- The state threaded through `httpGetFile`'s stream handlers: the
directory, the content of the open write-stream inode (`buf`), whether
the destination path still names that inode (`linked`), console output,
and whether the stream end fired (which runs `file.end`'s callback). -/
structure FetchSt where
  fs : FS
  buf : String
  linked : Bool
  logs : List String
  errors : List String
  cbInvoked : Bool
  deriving DecidableEq, Repr

/-- One stream event, handled exactly as the `.on(...)` handlers of
`httpGetFile` are written: non-200 response and transport error unlink
the destination path; data chunks append to the open stream (visible at
the path only while it is still linked); `end` closes the file and
invokes the completion callback unconditionally. -/
def fetchStep (filePath fileUrl : String) (st : FetchSt) : NetEvent → FetchSt
  | .response s =>
      if s ≠ 200 then
        { st with
          fs := fsRemove st.fs filePath
          linked := false
          errors := st.errors ++
            ["Error: Got code " ++ toString s ++ " from " ++ fileUrl] }
      else st
  | .chunk d =>
      let buf := st.buf ++ d
      { st with
        buf := buf
        fs := if st.linked then fsWrite st.fs filePath buf else st.fs }
  | .errorEv e =>
      { st with
        fs := fsRemove st.fs filePath
        linked := false
        errors := st.errors ++
          ["Error: Got error " ++ e ++ " from " ++ fileUrl] }
  | .endEv =>
      { st with
        cbInvoked := true
        logs := st.logs ++ [filePath ++ " downloaded to " ++ filePath] }

/-- Result of one `httpGetFile` call.  `requests` records the single
request issued for `fileUrl` (the function never retries). -/
structure FetchResult where
  fs : FS
  logs : List String
  errors : List String
  cbInvoked : Bool
  requests : List String
  deriving DecidableEq, Repr

/-- `httpGetFile(fileUrl, fileName, outputDir, callback)`: create the
write stream (creating/truncating the destination file), then process
the stream events. -/
def httpGetFile (fileUrl fileName : String) (fs : FS)
    (events : List NetEvent) : FetchResult :=
  let st0 : FetchSt :=
    { fs := fsWrite fs fileName ""
      buf := ""
      linked := true
      logs := ["downloading " ++ fileUrl ++ "..."]
      errors := []
      cbInvoked := false }
  let st := events.foldl (fetchStep fileName fileUrl) st0
  { fs := st.fs
    logs := st.logs
    errors := st.errors
    cbInvoked := st.cbInvoked
    requests := [fileUrl] }

/-- The `existingFiles.forEach` deletion loop of `downloadIfNew`:
`fs.unlinkSync` every file of the startup listing whose name contains
the binary's exclusive prefix.  The `Bool` is true when `unlinkSync`
threw (file of the listing no longer present), which kills the process.
-/
def deleteMatchingRun (pfx : String) : List FileName → FS → FS × Bool
  | [], fs => (fs, false)
  | f :: rest, fs =>
      if strContains f pfx then
        if fsExists fs f then deleteMatchingRun pfx rest (fsRemove fs f)
        else (fs, true)
      else deleteMatchingRun pfx rest fs

/-- Observable result of one `downloadIfNew` call.  `cbArg` is the file
path handed to `opt_callback` when the download's stream ended;
`crashed` records an uncaught exception (from `unlinkSync`). -/
structure StepResult where
  fs : FS
  requests : List String
  logs : List String
  errors : List String
  cbArg : Option FileName
  crashed : Bool
  deriving DecidableEq, Repr

/-- `downloadIfNew(bin, outputDir, existingFiles, opt_callback)`.
`binExists` is the `bin.exists` flag computed by the startup scan. -/
def downloadIfNew (bin : Binary) (binExists : Bool) (plat : Platform)
    (existingFiles : List FileName) (net : String → List NetEvent)
    (fs : FS) : StepResult :=
  if ¬binExists then
    match deleteMatchingRun bin.filePrefix existingFiles fs with
    | (fs1, true) =>
        { fs := fs1, requests := [], logs := [], errors := [],
          cbArg := none, crashed := true }
    | (fs1, false) =>
        match bin.url plat with
        | none =>
            { fs := fs1, requests := [],
              logs := ["Updating " ++ bin.name],
              errors := [bin.name ++ " is not available for your system."],
              cbArg := none, crashed := false }
        | some u =>
            let r := httpGetFile u bin.filename fs1 (net u)
            { fs := r.fs, requests := r.requests,
              logs := ["Updating " ++ bin.name] ++ r.logs,
              errors := r.errors,
              cbArg := if r.cbInvoked then some bin.filename else none,
              crashed := false }
  else
    { fs := fs, requests := [], logs := [bin.name ++ " is up to date."],
      errors := [], cbArg := none, crashed := false }

/-- adm-zip `extractAllTo(target, overwrite)` over decoded entries:
write each entry, skipping an entry whose file already exists unless
`overwrite` is set. -/
def extractAllTo (entries : List (FileName × String)) (overwrite : Bool)
    (fs : FS) : FS :=
  entries.foldl
    (fun acc e =>
      if fsExists acc e.1 && !overwrite then acc else fsWrite acc e.1 e.2)
    fs

/-- Result of running an install callback: the new directory, or the
message of the exception it threw. -/
inductive InstallOutcome
  | ok (fs : FS)
  | errored (message : String)
  deriving DecidableEq, Repr

/-- The archive-decoding capability: contents of a file → its entries,
`none` when `new AdmZip(...)` would throw on them. -/
abbrev Unzip := String → Option (List (FileName × String))

/-- The chrome `downloadIfNew` callback of the `update` command:
`new AdmZip(filename)` (throws ENOENT on a missing file, throws on an
invalid archive), `zip.extractAllTo(out_dir, true)`, then on non-Windows
`chmodSync('chromedriver', 0755)` (throws ENOENT when the archive did
not produce that file; the permission bits themselves are outside the
filesystem model). -/
def chromeInstallCb (uz : Unzip) (plat : Platform) (fs : FS)
    (p : FileName) : InstallOutcome :=
  match fsLookup fs p with
  | none => .errored ("ENOENT: " ++ p)
  | some content =>
      match uz content with
      | none => .errored "Invalid or unsupported zip format"
      | some entries =>
          let fs1 := extractAllTo entries true fs
          if plat.osType ≠ OSType.windowsNT then
            if fsExists fs1 "chromedriver" then .ok fs1
            else .errored "ENOENT: chmod chromedriver"
          else .ok fs1

/-- The ie `downloadIfNew` callback of the `update` command:
`new AdmZip(filename)` then `zip.extractAllTo(out_dir)` — note the
omitted second argument: `overwrite` defaults to false. -/
def ieInstallCb (uz : Unzip) (fs : FS) (p : FileName) : InstallOutcome :=
  match fsLookup fs p with
  | none => .errored ("ENOENT: " ++ p)
  | some content =>
      match uz content with
      | none => .errored "Invalid or unsupported zip format"
      | some entries => .ok (extractAllTo entries false fs)

/-- Per-binary selection flags of the `update` command (`argv.standalone`,
`argv.chrome`, `argv.ie`). -/
structure Argv3 where
  standalone : Bool
  chrome : Bool
  ie : Bool
  deriving DecidableEq, Repr

/-- Accumulated observable state of an `update` run. -/
structure CmdState where
  fs : FS
  requests : List String
  logs : List String
  errors : List String
  crashed : Bool
  deriving DecidableEq, Repr

/-- One selected binary's part of the `update` command: `downloadIfNew`
followed, when the download callback fired, by the binary's install
callback (whose uncaught throw crashes the process). -/
def updateStep (bin : Binary) (binExists : Bool) (plat : Platform)
    (existingFiles : List FileName) (net : String → List NetEvent)
    (install : Option (FS → FileName → InstallOutcome))
    (st : CmdState) : CmdState :=
  if st.crashed then st
  else
    let r := downloadIfNew bin binExists plat existingFiles net st.fs
    let st1 : CmdState :=
      { fs := r.fs
        requests := st.requests ++ r.requests
        logs := st.logs ++ r.logs
        errors := st.errors ++ r.errors
        crashed := r.crashed }
    match r.cbArg, install with
    | some p, some inst =>
        match inst st1.fs p with
        | .ok fs2 => { st1 with fs := fs2 }
        | .errored m => { st1 with errors := st1.errors ++ [m], crashed := true }
    | _, _ => st1

/-- A step guarded by its selection flag. -/
def condStep (b : Bool) (f : CmdState → CmdState) (st : CmdState) : CmdState :=
  if b then f st else st

/-- The `update` command: startup scan (directory listing and per-binary
`exists` flags, taken once before any command), then one `downloadIfNew`
per selected binary, the chrome and ie ones with their archive-install
callbacks. -/
def updateCommand (v : WebdriverVersions) (plat : Platform) (argv : Argv3)
    (uz : Unzip) (net : String → List NetEvent) (fs0 : FS) : CmdState :=
  condStep argv.ie
    (updateStep (binaries.ie v) (fsExists fs0 (binaries.ie v).filename)
      plat (fsNames fs0) net (some (fun fs p => ieInstallCb uz fs p)))
    (condStep argv.chrome
      (updateStep (binaries.chrome v) (fsExists fs0 (binaries.chrome v).filename)
        plat (fsNames fs0) net (some (fun fs p => chromeInstallCb uz plat fs p)))
      (condStep argv.standalone
        (updateStep (binaries.standalone v)
          (fsExists fs0 (binaries.standalone v).filename)
          plat (fsNames fs0) net none)
        { fs := fs0, requests := [], logs := [], errors := [], crashed := false }))

/-- Result of the `start` command's synchronous part: either the fatal
missing-binary abort (before any spawn), or the spawned child command. -/
inductive StartOutcome
  | abort (exitCode : Int) (error : String)
  | spawned (child : SpawnedCmd)
  deriving DecidableEq, Repr

/-- The `start` command: abort with exit code 1 when the standalone jar
is absent; otherwise build the java argument list (optional port, and a
driver-location argument for each driver binary currently present) and
spawn it. -/
def startCommand (v : WebdriverVersions) (plat : Platform) (outDir : String)
    (seleniumPort : Option String) (fs : FS) : StartOutcome :=
  if ¬fsExists fs (binaries.standalone v).filename then
    .abort 1 ("Selenium Standalone is not present. Install with " ++
      "webdriver-manager update --standalone")
  else
    let args := ["-jar", pathJoin outDir (binaries.standalone v).filename]
    let args := args ++
      (match seleniumPort with
       | some p => ["-port", p]
       | none => [])
    let args := args ++
      (if fsExists fs (binaries.chrome v).filename then
        ["-Dwebdriver.chrome.driver=" ++
          pathJoin outDir (executableName plat "chromedriver")]
       else [])
    let args := args ++
      (if fsExists fs (binaries.ie v).filename then
        ["-Dwebdriver.ie.driver=" ++
          pathJoin outDir (executableName plat "IEDriverServer")]
       else [])
    .spawned (spawnCommand plat "java" args)

/-- Events the supervising process reacts to after the spawn: the child
exiting, an interrupt signal, and data on the supervisor's stdin. -/
inductive SupEvent
  | childExit (code : Int)
  | sigint
  | stdinData (chunk : String)
  deriving DecidableEq, Repr

/-- Supervisor state: alive until `process.exit`, the recorded exit
code, HTTP requests issued (graceful-shutdown GET), console output. -/
structure SupState where
  alive : Bool
  exitCode : Option Int
  httpRequests : List String
  logs : List String
  deriving DecidableEq, Repr

/-- The supervisor state right after the spawn in the `start` command. -/
def supStart : SupState :=
  { alive := true, exitCode := none, httpRequests := [], logs := [] }

/-- The three event handlers installed by the `start` command:
`seleniumProcess.on('exit')` records the code and exits the process with
it; `process.stdin.on('data')` fires the shutdown GET; `process.on('SIGINT')`
only prints. -/
def supStep (st : SupState) : SupEvent → SupState
  | .childExit c =>
      { st with
        alive := false
        exitCode := some c
        logs := st.logs ++
          ["Selenium Standalone has exited with code " ++ toString c] }
  | .sigint =>
      { st with
        logs := st.logs ++
          ["Staying alive until the Selenium Standalone process exits"] }
  | .stdinData _ =>
      { st with
        logs := st.logs ++ ["Attempting to shut down selenium nicely"]
        httpRequests := st.httpRequests ++
          ["http://localhost:4444/selenium-server/driver/?cmd=shutDownSeleniumServer"] }

/-- Run the supervisor over a sequence of events; once `process.exit`
has run no further handler executes. -/
def supRun (st : SupState) : List SupEvent → SupState
  | [] => st
  | e :: rest => if st.alive then supRun (supStep st e) rest else st

/-- The last content written for name `m` when all of `entries` are
written in order (used to specify overwriting extraction). -/
def lastWrite (entries : List (FileName × String)) (m : FileName) :
    Option String :=
  (entries.reverse.find? (fun e => e.1 == m)).map (fun e => e.2)

/-- A sample `config.json` version configuration (the protractor
repository pins concrete versions there; any values work for the
witnesses below). -/
def sampleVersions : WebdriverVersions :=
  { selenium := "2.39.0", chromedriver := "2.9", iedriver := "2.39.0" }

/-- A 64-bit Linux host. -/
def linuxX64 : Platform :=
  { osType := OSType.linux, arch := Arch.x64 }

/-- A network script answering every request with a 200 response whose
single data chunk is determined by the requested URL. -/
def netRespond (body : String → String) : String → List NetEvent :=
  fun u => [NetEvent.response 200, NetEvent.chunk (body u), NetEvent.endEv]

/-- A network script answering every request with the given non-200
status and no data. -/
def netFail (status : Nat) : String → List NetEvent :=
  fun _ => [NetEvent.response status, NetEvent.endEv]

/-- A sample archive-decoding capability: the bytes "CZIP" decode to a
single `chromedriver` entry, the bytes "IEZIP" to a single
`IEDriverServer.exe` entry, anything else fails to decode. -/
def sampleUnzip : Unzip := fun c =>
  if c = "CZIP" then some [("chromedriver", "CDBIN")]
  else if c = "IEZIP" then some [("IEDriverServer.exe", "IEBIN")]
  else none

/-- A sample descriptor used to exercise the stale-replacement scenario
of the spec ("driver_v1 on disk, driver_v2 configured"). -/
def driverV2Bin : Binary where
  name := "driver"
  isDefault := true
  filePrefix := "driver_"
  filename := "driver_v2"
  url := fun _ => some "http://host/driver_v2"

/-- A sample directory holding only the stale `driver_v1`. -/
def fsDriverV1 : FS := [("driver_v1", "old")]

/-- A sample network for a full update under `sampleVersions` on 64-bit
Linux: the standalone URL serves "JARBYTES", the chrome URL serves
"CZIP" (which `sampleUnzip` decodes), anything else hangs up. -/
def netSampleUpdate : String → List NetEvent := fun u =>
  if u = "https://selenium-release.storage.googleapis.com/2.39/selenium-server-standalone-2.39.0.jar"
  then [NetEvent.response 200, NetEvent.chunk "JARBYTES", NetEvent.endEv]
  else if u = "https://chromedriver.storage.googleapis.com/2.9/chromedriver_linux64.zip"
  then [NetEvent.response 200, NetEvent.chunk "CZIP", NetEvent.endEv]
  else []

/-! ### Basic filesystem lemmas -/

theorem mem_fsRemove_iff (fs : FS) (n : FileName) (e : FileName × String) :
    e ∈ fsRemove fs n ↔ e ∈ fs ∧ e.1 ≠ n := by
  simp [fsRemove, List.mem_filter]

theorem mem_fsWrite_iff (fs : FS) (n : FileName) (c : String)
    (e : FileName × String) :
    e ∈ fsWrite fs n c ↔ (e ∈ fs ∧ e.1 ≠ n) ∨ e = (n, c) := by
  simp [fsWrite, mem_fsRemove_iff]

theorem fsExists_true_iff (fs : FS) (m : FileName) :
    fsExists fs m = true ↔ ∃ c, (m, c) ∈ fs := by
  simp only [fsExists, List.any_eq_true, beq_iff_eq]
  constructor
  · rintro ⟨⟨a, b⟩, hmem, rfl⟩
    exact ⟨b, hmem⟩
  · rintro ⟨c, hmem⟩
    exact ⟨(m, c), hmem, rfl⟩

theorem fsExists_eq_true_iff (fs : FS) (n : FileName) :
    fsExists fs n = true ↔ n ∈ fsNames fs := by
  rw [fsExists_true_iff]
  simp only [fsNames, List.mem_map]
  constructor
  · rintro ⟨c, hmem⟩
    exact ⟨(n, c), hmem, rfl⟩
  · rintro ⟨⟨a, b⟩, hmem, rfl⟩
    exact ⟨b, hmem⟩

theorem fsExists_of_mem_names (fs : FS) (m : FileName)
    (h : m ∈ fsNames fs) : fsExists fs m = true :=
  (fsExists_eq_true_iff fs m).2 h

theorem fsExists_remove (fs : FS) (n m : FileName) :
    fsExists (fsRemove fs n) m = (decide (m ≠ n) && fsExists fs m) := by
  rw [Bool.eq_iff_iff]
  simp only [fsExists_true_iff, mem_fsRemove_iff, Bool.and_eq_true,
    decide_eq_true_eq]
  constructor
  · rintro ⟨c, hmem, hne⟩
    exact ⟨hne, c, hmem⟩
  · rintro ⟨hne, c, hmem⟩
    exact ⟨c, hmem, hne⟩

theorem fsExists_write (fs : FS) (n m : FileName) (c : String) :
    fsExists (fsWrite fs n c) m = ((m == n) || fsExists fs m) := by
  rw [Bool.eq_iff_iff]
  simp only [fsExists_true_iff, mem_fsWrite_iff, Bool.or_eq_true, beq_iff_eq,
    Prod.mk.injEq]
  by_cases h : m = n
  · subst h
    constructor
    · intro _
      exact Or.inl rfl
    · intro _
      exact ⟨c, Or.inr ⟨rfl, rfl⟩⟩
  · constructor
    · rintro ⟨c0, ⟨hmem, _⟩ | ⟨hc, _⟩⟩
      · exact Or.inr ⟨c0, hmem⟩
      · exact absurd hc h
    · rintro (hc | ⟨c0, hmem⟩)
      · exact absurd hc h
      · exact ⟨c0, Or.inl ⟨hmem, h⟩⟩

theorem fsExists_write_self (fs : FS) (n : FileName) (c : String) :
    fsExists (fsWrite fs n c) n = true := by
  rw [fsExists_write]
  simp

theorem fsRemove_write_self (fs : FS) (n : FileName) (c : String) :
    fsRemove (fsWrite fs n c) n = fsRemove fs n := by
  simp [fsRemove, fsWrite, List.filter_append, List.filter_filter]

theorem fsWrite_write_self (fs : FS) (n : FileName) (a b : String) :
    fsWrite (fsWrite fs n a) n b = fsWrite fs n b := by
  simp [fsWrite, fsRemove, List.filter_append, List.filter_filter]

theorem fsLookup_cons (e : FileName × String) (l : FS) (m : FileName) :
    fsLookup (e :: l) m = if e.1 = m then some e.2 else fsLookup l m := by
  by_cases h : e.1 = m
  · rw [if_pos h]
    unfold fsLookup
    rw [List.find?_cons_of_pos _ (by simpa using h)]
    rfl
  · rw [if_neg h]
    unfold fsLookup
    rw [List.find?_cons_of_neg _ (by simpa using h)]

theorem fsLookup_append (l1 l2 : FS) (m : FileName) :
    fsLookup (l1 ++ l2) m =
      match fsLookup l1 m with
      | some c => some c
      | none => fsLookup l2 m := by
  unfold fsLookup
  rw [List.find?_append]
  cases h : List.find? (fun e => e.1 == m) l1 <;> simp [h, Option.or]

theorem fsLookup_remove_self (fs : FS) (n : FileName) :
    fsLookup (fsRemove fs n) n = none := by
  have hfind : List.find? (fun e => e.1 == n) (fsRemove fs n) = none := by
    rw [List.find?_eq_none]
    intro x hx
    have hx1 := (mem_fsRemove_iff fs n x).1 hx
    simpa using hx1.2
  simp [fsLookup, hfind]

theorem fsLookup_write_self (fs : FS) (n : FileName) (c : String) :
    fsLookup (fsWrite fs n c) n = some c := by
  unfold fsWrite
  rw [fsLookup_append, fsLookup_remove_self]
  simp [fsLookup_cons]

theorem fsLookup_remove_ne (fs : FS) (n m : FileName) (h : m ≠ n) :
    fsLookup (fsRemove fs n) m = fsLookup fs m := by
  induction fs with
  | nil => rfl
  | cons e rest ih =>
      show fsLookup (List.filter (fun x => x.1 != n) (e :: rest)) m = _
      rw [List.filter_cons]
      by_cases he : e.1 = n
      · rw [if_neg (by simp [he])]
        have hem : ¬e.1 = m := fun hc => h (by rw [← hc, he])
        rw [fsLookup_cons, if_neg hem]
        exact ih
      · rw [if_pos (by simp [he])]
        rw [fsLookup_cons, fsLookup_cons]
        by_cases hm : e.1 = m
        · simp [hm]
        · simp only [if_neg hm]
          exact ih

theorem fsLookup_write_ne (fs : FS) (n m : FileName) (c : String)
    (h : m ≠ n) :
    fsLookup (fsWrite fs n c) m = fsLookup fs m := by
  unfold fsWrite
  rw [fsLookup_append, fsLookup_remove_ne fs n m h]
  cases hl : fsLookup fs m with
  | some c0 => rfl
  | none =>
      show fsLookup [(n, c)] m = none
      rw [fsLookup_cons, if_neg (fun hc : n = m => h hc.symm)]
      rfl

theorem mem_fsNames_write (fs : FS) (n m : FileName) (c : String)
    (h : m ∈ fsNames (fsWrite fs n c)) : m = n ∨ m ∈ fsNames fs := by
  simp only [fsNames, List.mem_map] at h ⊢
  obtain ⟨e, he, rfl⟩ := h
  rcases (mem_fsWrite_iff fs n c e).1 he with ⟨hmem, _⟩ | rfl
  · exact Or.inr ⟨e, hmem, rfl⟩
  · exact Or.inl rfl

/-! ### Deletion-loop lemmas -/

theorem deleteMatchingRun_eq (pfx : String) :
    ∀ (existing : List FileName) (fs : FS), existing.Nodup →
      (∀ f ∈ existing, strContains f pfx = true → fsExists fs f = true) →
      deleteMatchingRun pfx existing fs =
        (fs.filter (fun e => !(strContains e.1 pfx && decide (e.1 ∈ existing))),
          false) := by
  intro existing
  induction existing with
  | nil =>
      intro fs _ _
      simp [deleteMatchingRun]
  | cons f rest ih =>
      intro fs hnd hex
      have hndr : rest.Nodup := hnd.of_cons
      have hfnr : f ∉ rest := (List.nodup_cons.1 hnd).1
      by_cases hc : strContains f pfx = true
      · have hfs : fsExists fs f = true := hex f (List.mem_cons_self f rest) hc
        have hexr : ∀ g ∈ rest, strContains g pfx = true →
            fsExists (fsRemove fs f) g = true := by
          intro g hg hgc
          have hgf : g ≠ f := fun h => hfnr (h ▸ hg)
          rw [fsExists_remove]
          simp [hgf, hex g (List.mem_cons_of_mem f hg) hgc]
        rw [deleteMatchingRun, if_pos hc, if_pos hfs, ih (fsRemove fs f) hndr hexr]
        have hp : ∀ e : FileName × String,
            (!(strContains e.1 pfx && decide (e.1 ∈ rest)) && (e.1 != f)) =
              !(strContains e.1 pfx && decide (e.1 ∈ f :: rest)) := by
          intro e
          by_cases hef : e.1 = f
          · simp [hef, hc]
          · by_cases hsc : strContains e.1 pfx = true <;>
              simp [hef, hsc, List.mem_cons]
        simp only [fsRemove, List.filter_filter]
        congr 1
        apply List.filter_congr
        intro e _
        exact hp e
      · have hexr : ∀ g ∈ rest, strContains g pfx = true →
            fsExists fs g = true := fun g hg hgc =>
          hex g (List.mem_cons_of_mem f hg) hgc
        rw [deleteMatchingRun, if_neg (by simpa using hc), ih fs hndr hexr]
        congr 1
        apply List.filter_congr
        intro e _
        by_cases hef : e.1 = f
        · have : strContains e.1 pfx = false := by
            rw [hef]
            exact Bool.not_eq_true _ ▸ hc
          simp [this]
        · by_cases hsc : strContains e.1 pfx = true <;>
            simp [hef, hsc, List.mem_cons]

theorem deleteMatchingRun_names (pfx : String) (fs : FS)
    (hnd : (fsNames fs).Nodup) :
    deleteMatchingRun pfx (fsNames fs) fs =
      (fs.filter (fun e => !strContains e.1 pfx), false) := by
  rw [deleteMatchingRun_eq pfx (fsNames fs) fs hnd
    (fun f hf _ => fsExists_of_mem_names fs f hf)]
  congr 1
  apply List.filter_congr
  intro e he
  have hm : e.1 ∈ fsNames fs := List.mem_map.2 ⟨e, he, rfl⟩
  simp [hm]

/-! ### Fetch-stream lemmas -/

theorem fetch_chunks_linked (fn u : String) (chunks : List String) :
    ∀ (fs : FS) (buf : String) (logs errors : List String) (cb : Bool),
    (chunks.map NetEvent.chunk).foldl (fetchStep fn u)
        { fs := fsWrite fs fn buf, buf := buf, linked := true,
          logs := logs, errors := errors, cbInvoked := cb } =
      { fs := fsWrite fs fn (chunks.foldl (fun a b => a ++ b) buf),
        buf := chunks.foldl (fun a b => a ++ b) buf, linked := true,
        logs := logs, errors := errors, cbInvoked := cb } := by
  induction chunks with
  | nil =>
      intro fs buf logs errors cb
      rfl
  | cons c cs ih =>
      intro fs buf logs errors cb
      simp only [List.map_cons, List.foldl_cons, fetchStep, if_true]
      rw [fsWrite_write_self]
      exact ih fs (buf ++ c) logs errors cb

theorem fetch_chunks_unlinked (fn u : String) (chunks : List String) :
    ∀ (fs : FS) (buf : String) (logs errors : List String) (cb : Bool),
    (chunks.map NetEvent.chunk).foldl (fetchStep fn u)
        { fs := fs, buf := buf, linked := false,
          logs := logs, errors := errors, cbInvoked := cb } =
      { fs := fs, buf := chunks.foldl (fun a b => a ++ b) buf,
        linked := false, logs := logs, errors := errors, cbInvoked := cb } := by
  induction chunks with
  | nil =>
      intro fs buf logs errors cb
      rfl
  | cons c cs ih =>
      intro fs buf logs errors cb
      simp only [List.map_cons, List.foldl_cons, fetchStep, if_false]
      exact ih fs (buf ++ c) logs errors cb

theorem httpGetFile_ok (u fn : String) (fs : FS) (chunks : List String) :
    httpGetFile u fn fs
        (NetEvent.response 200 ::
          (chunks.map NetEvent.chunk ++ [NetEvent.endEv])) =
      { fs := fsWrite fs fn (chunks.foldl (fun a b => a ++ b) "")
        logs := ["downloading " ++ u ++ "...", fn ++ " downloaded to " ++ fn]
        errors := []
        cbInvoked := true
        requests := [u] } := by
  simp only [httpGetFile]
  rw [List.foldl_cons]
  have h200 : fetchStep fn u
      { fs := fsWrite fs fn "", buf := "", linked := true,
        logs := ["downloading " ++ u ++ "..."], errors := [],
        cbInvoked := false } (NetEvent.response 200) =
      { fs := fsWrite fs fn "", buf := "", linked := true,
        logs := ["downloading " ++ u ++ "..."], errors := [],
        cbInvoked := false } := by
    simp [fetchStep]
  rw [h200, List.foldl_append, fetch_chunks_linked]
  simp only [List.foldl_cons, List.foldl_nil, fetchStep]
  rfl

theorem httpGetFile_non200 (u fn : String) (fs : FS) (chunks : List String)
    (s : Nat) (hs : s ≠ 200) :
    httpGetFile u fn fs
        (NetEvent.response s ::
          (chunks.map NetEvent.chunk ++ [NetEvent.endEv])) =
      { fs := fsRemove fs fn
        logs := ["downloading " ++ u ++ "...", fn ++ " downloaded to " ++ fn]
        errors := ["Error: Got code " ++ toString s ++ " from " ++ u]
        cbInvoked := true
        requests := [u] } := by
  simp only [httpGetFile]
  rw [List.foldl_cons]
  have hresp : fetchStep fn u
      { fs := fsWrite fs fn "", buf := "", linked := true,
        logs := ["downloading " ++ u ++ "..."], errors := [],
        cbInvoked := false } (NetEvent.response s) =
      { fs := fsRemove fs fn, buf := "", linked := false,
        logs := ["downloading " ++ u ++ "..."],
        errors := ["Error: Got code " ++ toString s ++ " from " ++ u],
        cbInvoked := false } := by
    simp [fetchStep, hs, fsRemove_write_self]
  rw [hresp, List.foldl_append, fetch_chunks_unlinked]
  simp only [List.foldl_cons, List.foldl_nil, fetchStep]
  rfl

theorem fetchStep_cb_monotone (fn u : String) (st : FetchSt) (e : NetEvent)
    (h : st.cbInvoked = true) : (fetchStep fn u st e).cbInvoked = true := by
  cases e with
  | response s =>
      by_cases hs : s ≠ 200
      · simp [fetchStep, hs, h]
      · simp [fetchStep, hs, h]
  | chunk d => simpa [fetchStep] using h
  | errorEv m => simpa [fetchStep] using h
  | endEv => simp [fetchStep]

theorem foldl_fetch_cb_monotone (fn u : String) (evs : List NetEvent) :
    ∀ st : FetchSt, st.cbInvoked = true →
      (evs.foldl (fetchStep fn u) st).cbInvoked = true := by
  induction evs with
  | nil => intro st h; exact h
  | cons e rest ih =>
      intro st h
      rw [List.foldl_cons]
      exact ih _ (fetchStep_cb_monotone fn u st e h)

theorem foldl_fetch_end_cb (fn u : String) (evs : List NetEvent) :
    ∀ st : FetchSt, NetEvent.endEv ∈ evs →
      (evs.foldl (fetchStep fn u) st).cbInvoked = true := by
  induction evs with
  | nil =>
      intro st h
      cases h
  | cons e rest ih =>
      intro st h
      rw [List.foldl_cons]
      rcases List.mem_cons.1 h with rfl | hr
      · exact foldl_fetch_cb_monotone fn u rest _ (by simp [fetchStep])
      · exact ih _ hr

theorem httpGetFile_cb_of_end (u fn : String) (fs : FS)
    (evs : List NetEvent) (h : NetEvent.endEv ∈ evs) :
    (httpGetFile u fn fs evs).cbInvoked = true := by
  unfold httpGetFile
  exact foldl_fetch_end_cb fn u evs _ h

/-! ### Extraction lemmas -/

theorem lastWrite_cons (e : FileName × String)
    (rest : List (FileName × String)) (m : FileName) :
    lastWrite (e :: rest) m =
      match lastWrite rest m with
      | some c => some c
      | none => if e.1 = m then some e.2 else none := by
  unfold lastWrite
  rw [List.reverse_cons, List.find?_append]
  cases h : List.find? (fun x => x.1 == m) rest.reverse with
  | some e0 => simp [h, Option.or]
  | none =>
      by_cases he : e.1 = m
      · simp [h, he, Option.or, List.find?]
      · have hb : (e.1 == m) = false := by simp [he]
        simp only [h, hb, Option.or, List.find?]
        rw [if_neg he]
        rfl

theorem extractAllTo_true_lookup (entries : List (FileName × String)) :
    ∀ (fs : FS) (m : FileName),
    fsLookup (extractAllTo entries true fs) m =
      match lastWrite entries m with
      | some c => some c
      | none => fsLookup fs m := by
  induction entries with
  | nil =>
      intro fs m
      rfl
  | cons e rest ih =>
      intro fs m
      have hstep : extractAllTo (e :: rest) true fs =
          extractAllTo rest true (fsWrite fs e.1 e.2) := by
        simp [extractAllTo]
      rw [hstep, ih, lastWrite_cons]
      cases hl : lastWrite rest m with
      | some c => rfl
      | none =>
          by_cases hem : e.1 = m
          · subst hem
            rw [fsLookup_write_self]
            simp
          · rw [fsLookup_write_ne fs e.1 m e.2 (fun hc => hem hc.symm)]
            simp [hem]

theorem extractAllTo_true_idem (entries : List (FileName × String))
    (fs : FS) (m : FileName) :
    fsLookup (extractAllTo entries true (extractAllTo entries true fs)) m =
      fsLookup (extractAllTo entries true fs) m := by
  rw [extractAllTo_true_lookup, extractAllTo_true_lookup]
  cases hl : lastWrite entries m <;> simp [hl, extractAllTo_true_lookup]

theorem extractAllTo_false_existing (entries : List (FileName × String)) :
    ∀ (fs : FS) (m : FileName), fsExists fs m = true →
    fsLookup (extractAllTo entries false fs) m = fsLookup fs m := by
  induction entries with
  | nil =>
      intro fs m _
      rfl
  | cons e rest ih =>
      intro fs m h
      by_cases hex : fsExists fs e.1 = true
      · have hstep : extractAllTo (e :: rest) false fs =
            extractAllTo rest false fs := by
          simp [extractAllTo, hex]
        rw [hstep]
        exact ih fs m h
      · have hstep : extractAllTo (e :: rest) false fs =
            extractAllTo rest false (fsWrite fs e.1 e.2) := by
          simp [extractAllTo, hex]
        have hme : m ≠ e.1 := fun hc => hex (hc ▸ h)
        have hex2 : fsExists (fsWrite fs e.1 e.2) m = true := by
          rw [fsExists_write]
          simp [h]
        rw [hstep, ih _ m hex2, fsLookup_write_ne fs e.1 m e.2 hme]

theorem downloadIfNew_exists (bin : Binary) (plat : Platform)
    (existing : List FileName) (net : String → List NetEvent) (fs : FS) :
    downloadIfNew bin true plat existing net fs =
      { fs := fs, requests := [], logs := [bin.name ++ " is up to date."],
        errors := [], cbArg := none, crashed := false } := by
  simp [downloadIfNew]

theorem downloadIfNew_crash (bin : Binary) (plat : Platform)
    (existing : List FileName) (net : String → List NetEvent) (fs fs1 : FS)
    (h : deleteMatchingRun bin.filePrefix existing fs = (fs1, true)) :
    downloadIfNew bin false plat existing net fs =
      { fs := fs1, requests := [], logs := [], errors := [],
        cbArg := none, crashed := true } := by
  simp [downloadIfNew, h]

theorem downloadIfNew_url_none (bin : Binary) (plat : Platform)
    (existing : List FileName) (net : String → List NetEvent) (fs fs1 : FS)
    (hd : deleteMatchingRun bin.filePrefix existing fs = (fs1, false))
    (hu : bin.url plat = none) :
    downloadIfNew bin false plat existing net fs =
      { fs := fs1, requests := [], logs := ["Updating " ++ bin.name],
        errors := [bin.name ++ " is not available for your system."],
        cbArg := none, crashed := false } := by
  simp [downloadIfNew, hd, hu]

theorem downloadIfNew_fetch (bin : Binary) (plat : Platform)
    (existing : List FileName) (net : String → List NetEvent) (fs fs1 : FS)
    (u : String)
    (hd : deleteMatchingRun bin.filePrefix existing fs = (fs1, false))
    (hu : bin.url plat = some u) :
    downloadIfNew bin false plat existing net fs =
      { fs := (httpGetFile u bin.filename fs1 (net u)).fs,
        requests := (httpGetFile u bin.filename fs1 (net u)).requests,
        logs := ["Updating " ++ bin.name] ++
          (httpGetFile u bin.filename fs1 (net u)).logs,
        errors := (httpGetFile u bin.filename fs1 (net u)).errors,
        cbArg := if (httpGetFile u bin.filename fs1 (net u)).cbInvoked then
            some bin.filename
          else none,
        crashed := false } := by
  simp [downloadIfNew, hd, hu]

/-! ### Claim theorems -/

/-- C3: when the supervised child process exits with any code `c`, the
supervisor records `c` and terminates its own process with exactly that
code (the `seleniumProcess.on('exit')` handler calls `process.exit(code)`);
in particular a child exiting with code 3 makes the supervisor exit
with code 3. -/
theorem c3_exit_code_propagation :
    (∀ (st : SupState) (c : Int),
      (supStep st (SupEvent.childExit c)).exitCode = some c ∧
        (supStep st (SupEvent.childExit c)).alive = false) ∧
    (supRun supStart [SupEvent.childExit 3]).exitCode = some 3 := by
  refine ⟨fun st c => ⟨rfl, rfl⟩, ?_⟩
  rfl

/-- C9: the interrupt-signal handler only prints an explanatory message
and leaves the supervisor alive with its exit code unset, and a
supervisor run terminates (`process.exit`) only when some child-exit
event occurs among the processed events. -/
theorem c9_sigint_stays_alive :
    (∀ st : SupState,
      (supStep st SupEvent.sigint).alive = st.alive ∧
      (supStep st SupEvent.sigint).exitCode = st.exitCode ∧
      (supStep st SupEvent.sigint).logs = st.logs ++
        ["Staying alive until the Selenium Standalone process exits"]) ∧
    (∀ (st : SupState) (evs : List SupEvent),
      (supRun st evs).alive = false →
        st.alive = false ∨ ∃ c, SupEvent.childExit c ∈ evs) := by
  constructor
  · intro st
    exact ⟨rfl, rfl, rfl⟩
  · intro st evs
    induction evs generalizing st with
    | nil =>
        intro h
        exact Or.inl h
    | cons e rest ih =>
        intro h
        rw [supRun] at h
        by_cases ha : st.alive = true
        · rw [if_pos ha] at h
          rcases ih (supStep st e) h with hdead | ⟨c, hc⟩
          · cases e with
            | childExit c => exact Or.inr ⟨c, List.mem_cons_self _ _⟩
            | sigint =>
                rw [show (supStep st SupEvent.sigint).alive = st.alive from rfl,
                  ha] at hdead
                cases hdead
            | stdinData d =>
                rw [show (supStep st (SupEvent.stdinData d)).alive = st.alive
                  from rfl, ha] at hdead
                cases hdead
          · exact Or.inr ⟨c, List.mem_cons_of_mem _ hc⟩
        · rw [if_neg ha] at h
          exact Or.inl h

/-- Witness for C9 at a concrete run: starting from the freshly spawned
supervisor, the run [sigint, child exit 0] terminates, and the theorem
locates the child-exit event as the only possible cause. -/
theorem c9_sigint_stays_alive_witness :
    supStart.alive = false ∨
      ∃ c, SupEvent.childExit c ∈ [SupEvent.sigint, SupEvent.childExit 0] :=
  c9_sigint_stays_alive.2 supStart [SupEvent.sigint, SupEvent.childExit 0]
    (by decide)

/-- C4: when the server jar's exact expected file is absent, the start
command reports the missing binary and aborts with exit status 1 before
any spawn attempt (the result is the `abort` outcome, not `spawned`). -/
theorem c4_start_missing_server_aborts (v : WebdriverVersions)
    (plat : Platform) (outDir : String) (port : Option String) (fs : FS)
    (h : fsExists fs (binaries.standalone v).filename = false) :
    startCommand v plat outDir port fs =
      StartOutcome.abort 1
        ("Selenium Standalone is not present. Install with " ++
          "webdriver-manager update --standalone") := by
  unfold startCommand
  rw [if_pos (by simp [h])]

/-- Witness for C4: empty output directory, sample configuration. -/
theorem c4_start_missing_server_aborts_witness :
    fsExists [] (binaries.standalone sampleVersions).filename = false ∧
    startCommand sampleVersions linuxX64 "/out" none [] =
      StartOutcome.abort 1
        ("Selenium Standalone is not present. Install with " ++
          "webdriver-manager update --standalone") :=
  ⟨by decide,
    c4_start_missing_server_aborts sampleVersions linuxX64 "/out" none []
      (by decide)⟩

/-- C5: a fetch whose response status is not 200 unlinks the destination
file (no file remains at the destination path), reports the status code
in the error output, and issues exactly one request (no retry). -/
theorem c5_non200_no_partial_file (u fn : String) (fs : FS)
    (chunks : List String) (s : Nat) (hs : s ≠ 200) :
    fsExists (httpGetFile u fn fs (NetEvent.response s ::
        (chunks.map NetEvent.chunk ++ [NetEvent.endEv]))).fs fn = false ∧
    (httpGetFile u fn fs (NetEvent.response s ::
        (chunks.map NetEvent.chunk ++ [NetEvent.endEv]))).errors =
      ["Error: Got code " ++ toString s ++ " from " ++ u] ∧
    (httpGetFile u fn fs (NetEvent.response s ::
        (chunks.map NetEvent.chunk ++ [NetEvent.endEv]))).requests = [u] := by
  rw [httpGetFile_non200 u fn fs chunks s hs]
  refine ⟨?_, rfl, rfl⟩
  rw [fsExists_remove]
  simp

/-- Witness for C5: a 404 response for a one-chunk download into a
directory that already held an unrelated file. -/
theorem c5_non200_no_partial_file_witness :
    (404 : Nat) ≠ 200 ∧
    fsExists (httpGetFile "http://host/f.zip" "f.zip" [("other", "x")]
        (NetEvent.response 404 ::
          (["partial"].map NetEvent.chunk ++ [NetEvent.endEv]))).fs
      "f.zip" = false :=
  ⟨by decide,
    (c5_non200_no_partial_file "http://host/f.zip" "f.zip" [("other", "x")]
      ["partial"] 404 (by decide)).1⟩

/-- C1: a descriptor whose exact expected file exists at scan time is a
complete no-op in `downloadIfNew` apart from the "up to date" log (no
stale-prefix deletion, no URL resolution, no network request), and an
`update` run in which every selected binary is present issues zero
network requests and leaves the output directory unchanged — hence a
second reconciliation immediately after a successful one is a no-op. -/
theorem c1_present_is_authoritative :
    (∀ (bin : Binary) (plat : Platform) (existing : List FileName)
        (net : String → List NetEvent) (fs : FS),
      fsExists fs bin.filename = true →
      downloadIfNew bin (fsExists fs bin.filename) plat existing net fs =
        { fs := fs, requests := [], logs := [bin.name ++ " is up to date."],
          errors := [], cbArg := none, crashed := false }) ∧
    (∀ (v : WebdriverVersions) (plat : Platform) (argv : Argv3) (uz : Unzip)
        (net : String → List NetEvent) (fs : FS),
      (argv.standalone = true →
        fsExists fs (binaries.standalone v).filename = true) →
      (argv.chrome = true → fsExists fs (binaries.chrome v).filename = true) →
      (argv.ie = true → fsExists fs (binaries.ie v).filename = true) →
      (updateCommand v plat argv uz net fs).fs = fs ∧
        (updateCommand v plat argv uz net fs).requests = []) ∧
    ((updateCommand sampleVersions linuxX64
        { standalone := true, chrome := true, ie := false } sampleUnzip
        netSampleUpdate
        (updateCommand sampleVersions linuxX64
          { standalone := true, chrome := true, ie := false } sampleUnzip
          netSampleUpdate []).fs).fs =
      (updateCommand sampleVersions linuxX64
        { standalone := true, chrome := true, ie := false } sampleUnzip
        netSampleUpdate []).fs ∧
      (updateCommand sampleVersions linuxX64
        { standalone := true, chrome := true, ie := false } sampleUnzip
        netSampleUpdate
        (updateCommand sampleVersions linuxX64
          { standalone := true, chrome := true, ie := false } sampleUnzip
          netSampleUpdate []).fs).requests = []) := by
  refine ⟨?_, ?_, by decide, by decide⟩
  · intro bin plat existing net fs h
    rw [h, downloadIfNew_exists]
  · intro v plat argv uz net fs hs hc hi
    rcases argv with ⟨as, ac, ai⟩
    cases as <;> cases ac <;> cases ai <;>
      simp_all [updateCommand, condStep, updateStep, downloadIfNew_exists]

/-- Witness for C1: all three binaries present; the update run with all
three selected changes nothing and requests nothing. -/
theorem c1_present_is_authoritative_witness :
    (updateCommand sampleVersions linuxX64
        { standalone := true, chrome := true, ie := true } sampleUnzip
        (netFail 500)
        [("selenium-server-standalone-2.39.0.jar", "j"),
          ("chromedriver_2.9.zip", "z"),
          ("IEDriverServer_2.39.0.zip", "i")]).fs =
      [("selenium-server-standalone-2.39.0.jar", "j"),
        ("chromedriver_2.9.zip", "z"),
        ("IEDriverServer_2.39.0.zip", "i")] ∧
    (updateCommand sampleVersions linuxX64
        { standalone := true, chrome := true, ie := true } sampleUnzip
        (netFail 500)
        [("selenium-server-standalone-2.39.0.jar", "j"),
          ("chromedriver_2.9.zip", "z"),
          ("IEDriverServer_2.39.0.zip", "i")]).requests = [] :=
  c1_present_is_authoritative.2.1 sampleVersions linuxX64
    { standalone := true, chrome := true, ie := true } sampleUnzip
    (netFail 500)
    [("selenium-server-standalone-2.39.0.jar", "j"),
      ("chromedriver_2.9.zip", "z"),
      ("IEDriverServer_2.39.0.zip", "i")]
    (fun _ => by decide) (fun _ => by decide) (fun _ => by decide)

/-- C2: for a descriptor whose exact expected file is absent, the
deletion loop removes every file whose name contains the descriptor's
prefix before the fetch, so after a successful download the directory
contains the expected file and no other file whose name contains the
prefix, with exactly one request issued. -/
theorem c2_stale_prefix_cleanup (bin : Binary) (plat : Platform)
    (net : String → List NetEvent) (fs : FS) (u : String)
    (chunks : List String)
    (hnd : (fsNames fs).Nodup)
    (habs : fsExists fs bin.filename = false)
    (hu : bin.url plat = some u)
    (hnet : net u = NetEvent.response 200 ::
      (chunks.map NetEvent.chunk ++ [NetEvent.endEv])) :
    (downloadIfNew bin (fsExists fs bin.filename) plat (fsNames fs) net
        fs).crashed = false ∧
    fsExists (downloadIfNew bin (fsExists fs bin.filename) plat (fsNames fs)
        net fs).fs bin.filename = true ∧
    (∀ n ∈ fsNames (downloadIfNew bin (fsExists fs bin.filename) plat
        (fsNames fs) net fs).fs,
      strContains n bin.filePrefix = true → n = bin.filename) ∧
    (downloadIfNew bin (fsExists fs bin.filename) plat (fsNames fs) net
        fs).requests = [u] := by
  rw [habs]
  have hd := deleteMatchingRun_names bin.filePrefix fs hnd
  rw [downloadIfNew_fetch bin plat (fsNames fs) net fs _ u hd hu, hnet,
    httpGetFile_ok]
  refine ⟨rfl, fsExists_write_self _ _ _, ?_, rfl⟩
  intro n hn hcont
  rcases mem_fsNames_write _ _ _ _ hn with h | h
  · exact h
  · exfalso
    simp only [fsNames, List.mem_map] at h
    obtain ⟨e, he, rfl⟩ := h
    have := List.mem_filter.1 he
    rw [hcont] at this
    simpa using this.2

/-- Witness for C2: a directory holding `driver_v1` with `driver_v2`
configured; after reconciliation the directory holds `driver_v2` and no
other `driver_`-prefixed file. -/
theorem c2_stale_prefix_cleanup_witness :
    fsExists (downloadIfNew driverV2Bin
        (fsExists fsDriverV1 driverV2Bin.filename) linuxX64
        (fsNames fsDriverV1) (netRespond (fun _ => "v2bytes"))
        fsDriverV1).fs "driver_v2" = true ∧
    (∀ n ∈ fsNames (downloadIfNew driverV2Bin
        (fsExists fsDriverV1 driverV2Bin.filename) linuxX64
        (fsNames fsDriverV1) (netRespond (fun _ => "v2bytes"))
        fsDriverV1).fs,
      strContains n "driver_" = true → n = "driver_v2") := by
  have h := c2_stale_prefix_cleanup driverV2Bin linuxX64
    (netRespond (fun _ => "v2bytes")) fsDriverV1 "http://host/driver_v2"
    ["v2bytes"] (by decide) (by decide) (by decide) (by decide)
  exact ⟨h.2.1, h.2.2.1⟩

/-- Helper: a selected binary whose URL resolves to nothing contributes
no network request to an `update` run, whatever the incoming state. -/
theorem updateStep_requests_url_none (bin : Binary) (be : Bool)
    (plat : Platform) (existing : List FileName)
    (net : String → List NetEvent)
    (inst : Option (FS → FileName → InstallOutcome)) (st : CmdState)
    (h : bin.url plat = none) :
    (updateStep bin be plat existing net inst st).requests = st.requests := by
  simp only [updateStep]
  by_cases hc : st.crashed = true
  · rw [if_pos hc]
  · rw [if_neg hc]
    cases be with
    | true =>
        rw [downloadIfNew_exists]
        simp
    | false =>
        rcases hdm : deleteMatchingRun bin.filePrefix existing st.fs
          with ⟨fs1, b⟩
        cases b with
        | true =>
            rw [downloadIfNew_crash bin plat existing net st.fs fs1 hdm]
            simp
        | false =>
            rw [downloadIfNew_url_none bin plat existing net st.fs fs1 hdm h]
            simp

/-- C6: a non-present descriptor whose URL resolver yields nothing for
the current platform is reported as unavailable and processing of it
stops with no network request; on every non-Windows platform the ie
descriptor's resolver yields nothing; and the request set of an update
run is exactly what it would be with that descriptor deselected, so the
other descriptors are unaffected. -/
theorem c6_unavailable_for_platform :
    (∀ (bin : Binary) (plat : Platform) (existing : List FileName)
        (net : String → List NetEvent) (fs fs1 : FS),
      deleteMatchingRun bin.filePrefix existing fs = (fs1, false) →
      bin.url plat = none →
      downloadIfNew bin false plat existing net fs =
        { fs := fs1, requests := [], logs := ["Updating " ++ bin.name],
          errors := [bin.name ++ " is not available for your system."],
          cbArg := none, crashed := false }) ∧
    (∀ (v : WebdriverVersions) (plat : Platform),
      plat.osType ≠ OSType.windowsNT → (binaries.ie v).url plat = none) ∧
    (∀ (v : WebdriverVersions) (plat : Platform) (argv : Argv3) (uz : Unzip)
        (net : String → List NetEvent) (fs0 : FS),
      (binaries.ie v).url plat = none →
      (updateCommand v plat argv uz net fs0).requests =
        (updateCommand v plat
          { standalone := argv.standalone, chrome := argv.chrome,
            ie := false } uz net fs0).requests) := by
  refine ⟨fun bin plat existing net fs fs1 hd hu =>
    downloadIfNew_url_none bin plat existing net fs fs1 hd hu, ?_, ?_⟩
  · intro v plat h
    rcases plat with ⟨os, a⟩
    cases os with
    | windowsNT => exact absurd rfl h
    | darwin => rfl
    | linux => rfl
    | other => rfl
  · intro v plat argv uz net fs0 hu
    rcases argv with ⟨as, ac, ai⟩
    cases ai with
    | false => rfl
    | true =>
        simp only [updateCommand, condStep, if_true, if_false]
        exact updateStep_requests_url_none _ _ _ _ _ _ _ hu

/-- Witness for C6: on 64-bit Linux the ie descriptor (configured with
the sample versions, a stale `IEDriverServer.exe` on disk) is reported
unavailable with no request issued. -/
theorem c6_unavailable_for_platform_witness :
    downloadIfNew (binaries.ie sampleVersions) false linuxX64
        ["IEDriverServer.exe"] (netFail 404) [("IEDriverServer.exe", "old")] =
      { fs := [], requests := [],
        logs := ["Updating " ++ (binaries.ie sampleVersions).name],
        errors := [(binaries.ie sampleVersions).name ++
          " is not available for your system."],
        cbArg := none, crashed := false } :=
  c6_unavailable_for_platform.1 (binaries.ie sampleVersions) linuxX64
    ["IEDriverServer.exe"] (netFail 404) [("IEDriverServer.exe", "old")] []
    (by decide) (by decide)

/-- C10: the `end` handler of a fetch invokes the completion callback
unconditionally — whenever the response stream ends, the callback runs
regardless of the response status or an earlier transport error — so
after a failed (non-200) download of the chrome archive, the install
callback is still handed the destination path, where `new AdmZip`
then throws ENOENT on the deleted file. -/
theorem c10_callback_runs_after_failure :
    (∀ (u fn : String) (fs : FS) (evs : List NetEvent),
      NetEvent.endEv ∈ evs → (httpGetFile u fn fs evs).cbInvoked = true) ∧
    (∀ (v : WebdriverVersions) (plat : Platform) (uz : Unzip)
        (net : String → List NetEvent) (fs : FS) (u : String)
        (chunks : List String) (s : Nat),
      s ≠ 200 →
      (fsNames fs).Nodup →
      (binaries.chrome v).url plat = some u →
      net u = NetEvent.response s ::
        (chunks.map NetEvent.chunk ++ [NetEvent.endEv]) →
      (downloadIfNew (binaries.chrome v) false plat (fsNames fs) net
          fs).cbArg = some (binaries.chrome v).filename ∧
      chromeInstallCb uz plat
          (downloadIfNew (binaries.chrome v) false plat (fsNames fs) net
            fs).fs (binaries.chrome v).filename =
        InstallOutcome.errored
          ("ENOENT: " ++ (binaries.chrome v).filename)) := by
  constructor
  · intro u fn fs evs h
    exact httpGetFile_cb_of_end u fn fs evs h
  · intro v plat uz net fs u chunks s hs hnd hu hnet
    have hd := deleteMatchingRun_names (binaries.chrome v).filePrefix fs hnd
    rw [downloadIfNew_fetch (binaries.chrome v) plat (fsNames fs) net fs _ u
      hd hu, hnet, httpGetFile_non200 u (binaries.chrome v).filename _ chunks
      s hs]
    refine ⟨rfl, ?_⟩
    have hnone : fsLookup
        (fsRemove (List.filter (fun e => !strContains e.1
          (binaries.chrome v).filePrefix) fs) (binaries.chrome v).filename)
        (binaries.chrome v).filename = none :=
      fsLookup_remove_self _ _
    simp [chromeInstallCb, hnone]

/-- Witness for C10: a 404 chrome download on 64-bit Linux; the install
callback still fires on the (deleted) zip path and AdmZip errors. -/
theorem c10_callback_runs_after_failure_witness :
    (downloadIfNew (binaries.chrome sampleVersions) false linuxX64
        (fsNames []) (netFail 404) []).cbArg =
      some (binaries.chrome sampleVersions).filename ∧
    chromeInstallCb sampleUnzip linuxX64
        (downloadIfNew (binaries.chrome sampleVersions) false linuxX64
          (fsNames []) (netFail 404) []).fs
        (binaries.chrome sampleVersions).filename =
      InstallOutcome.errored
        ("ENOENT: " ++ (binaries.chrome sampleVersions).filename) :=
  c10_callback_runs_after_failure.2 sampleVersions linuxX64 sampleUnzip
    (netFail 404) [] (Option.get ((binaries.chrome sampleVersions).url linuxX64) (by decide))
    [] 404 (by decide) (by decide) (by decide) (by decide)

/-- C7 counterexample: the ie install callback calls `extractAllTo`
without the overwrite argument (which defaults to false), so re-running
it over an existing `IEDriverServer.exe` leaves the old file in place
instead of overwriting it — refuting "extracting ... overwrites existing
entries of the same name ... for every archived artifact handled by the
reconcile pass" at this concrete input. -/
theorem c7_counterexample_ie_no_overwrite :
    ieInstallCb sampleUnzip
        [("IEDriverServer.exe", "old"),
          ("IEDriverServer_2.39.0.zip", "IEZIP")]
        "IEDriverServer_2.39.0.zip" =
      InstallOutcome.ok
        [("IEDriverServer.exe", "old"),
          ("IEDriverServer_2.39.0.zip", "IEZIP")] ∧
    sampleUnzip "IEZIP" = some [("IEDriverServer.exe", "IEBIN")] ∧
    ("old" : String) ≠ "IEBIN" := by
  refine ⟨by decide, by decide, by decide⟩

/-- C7 (amended): installation is overwrite-idempotent for the chrome
artifact — its `extractAllTo(outputDir, true)` writes every entry, the
last write for a name wins, and re-running it on the same archive
changes nothing — but the ie artifact's `extractAllTo(outputDir)` runs
with overwrite defaulted to false, so entries whose file already exists
are skipped and the existing contents are left unchanged. -/
theorem c7_amended_overwrite_semantics :
    (∀ (entries : List (FileName × String)) (fs : FS) (m : FileName),
      fsLookup (extractAllTo entries true fs) m =
        match lastWrite entries m with
        | some c => some c
        | none => fsLookup fs m) ∧
    (∀ (entries : List (FileName × String)) (fs : FS) (m : FileName),
      fsLookup (extractAllTo entries true (extractAllTo entries true fs)) m =
        fsLookup (extractAllTo entries true fs) m) ∧
    (∀ (entries : List (FileName × String)) (fs : FS) (m : FileName),
      fsExists fs m = true →
      fsLookup (extractAllTo entries false fs) m = fsLookup fs m) ∧
    (∀ (uz : Unzip) (fs : FS) (p : FileName) (content : String)
        (entries : List (FileName × String)),
      fsLookup fs p = some content → uz content = some entries →
      ieInstallCb uz fs p = InstallOutcome.ok (extractAllTo entries false fs)) := by
  refine ⟨extractAllTo_true_lookup, extractAllTo_true_idem,
    extractAllTo_false_existing, ?_⟩
  intro uz fs p content entries h1 h2
  simp [ieInstallCb, h1, h2]

/-- Witness for C7 (amended): the ie install over the sample directory
skips the existing `IEDriverServer.exe`. -/
theorem c7_amended_overwrite_semantics_witness :
    fsExists [("IEDriverServer.exe", "old"),
        ("IEDriverServer_2.39.0.zip", "IEZIP")] "IEDriverServer.exe" = true ∧
    fsLookup (extractAllTo [("IEDriverServer.exe", "IEBIN")] false
        [("IEDriverServer.exe", "old"),
          ("IEDriverServer_2.39.0.zip", "IEZIP")]) "IEDriverServer.exe" =
      fsLookup [("IEDriverServer.exe", "old"),
        ("IEDriverServer_2.39.0.zip", "IEZIP")] "IEDriverServer.exe" ∧
    ieInstallCb sampleUnzip
        [("IEDriverServer.exe", "old"),
          ("IEDriverServer_2.39.0.zip", "IEZIP")]
        "IEDriverServer_2.39.0.zip" =
      InstallOutcome.ok (extractAllTo [("IEDriverServer.exe", "IEBIN")] false
        [("IEDriverServer.exe", "old"),
          ("IEDriverServer_2.39.0.zip", "IEZIP")]) :=
  ⟨by decide,
    c7_amended_overwrite_semantics.2.2.1 [("IEDriverServer.exe", "IEBIN")]
      [("IEDriverServer.exe", "old"), ("IEDriverServer_2.39.0.zip", "IEZIP")]
      "IEDriverServer.exe" (by decide),
    c7_amended_overwrite_semantics.2.2.2 sampleUnzip
      [("IEDriverServer.exe", "old"), ("IEDriverServer_2.39.0.zip", "IEZIP")]
      "IEDriverServer_2.39.0.zip" "IEZIP"
      [("IEDriverServer.exe", "IEBIN")] (by decide) (by decide)⟩

